import Mathlib

/-!
Shallow embedding of the quickfix engine (`crates/aiken-lsp/src/quickfix.rs`)
and the documentation generator (`crates/aiken-project/src/docs.rs`) of the
aiken repository, together with theorems settling the frozen claims about
their natural-language specification.

External collaborators (the `edits` module / Document Edit Provider, the
`lsp_types` crate, `serde_json`, the aiken-lang AST and formatter, askama
templates, pulldown-cmark and the `link_tree` submodule) are not part of the
given sources; they are modelled as abstract data (structures with function
fields) exactly at the boundary where the given code calls them.
-/

/-- The value of one decimal digit character, if it is one. -/
def digit? (c : Char) : Option Nat :=
  if c = '0' then some 0
  else if c = '1' then some 1
  else if c = '2' then some 2
  else if c = '3' then some 3
  else if c = '4' then some 4
  else if c = '5' then some 5
  else if c = '6' then some 6
  else if c = '7' then some 7
  else if c = '8' then some 8
  else if c = '9' then some 9
  else none

/-- Read a nonempty all-digit character list as a base-10 natural number. -/
def digits_to_nat? : List Char → Option Nat
  | [] => none
  | l =>
    l.foldl
      (fun acc c => acc.bind (fun a => (digit? c).map (fun d => a * 10 + d)))
      (some 0)

/-- Split a character list at every occurrence of the separator character,
like Rust `str::split` with a one-character pattern (an empty input yields
one empty field). -/
def split_char (sep : Char) : List Char → List (List Char)
  | [] => [[]]
  | c :: cs =>
    match split_char sep cs with
    | [] => if c = sep then [[], []] else [[c]]
    | field :: fields =>
      if c = sep then [] :: field :: fields
      else (c :: field) :: fields

/-- Rust `str::split(',').collect::<Vec<_>>()` over a string. -/
def split_on_comma (s : String) : List String :=
  (split_char ',' s.data).map String.mk

/-- Rust `str::ends_with` with a string pattern. -/
def ends_with (s pattern : String) : Bool :=
  pattern.data.isSuffixOf s.data

namespace AikenLsp

/-- Model of `serde_json::Value` (external crate). Only the `String`
constructor is ever inspected by the quickfix code; the others model the
remaining JSON shapes. -/
inductive Json where
  | null : Json
  | bool (b : Bool) : Json
  | num (n : Int) : Json
  | str (s : String) : Json
  | arr (xs : List Json) : Json
  | obj (kvs : List (String × Json)) : Json

/-- Model of `lsp_types::DiagnosticSeverity` (ERROR, WARNING, INFORMATION, HINT). -/
inductive DiagnosticSeverity where
  | error | warning | information | hint
deriving DecidableEq

/-- Model of `lsp_types::NumberOrString`. -/
inductive NumberOrString where
  | num (n : Int) : NumberOrString
  | str (s : String) : NumberOrString
deriving DecidableEq

/-- Model of `lsp_types::TextEdit`: a range (as a pair of positions,
abstracted to offsets) and a replacement string. -/
structure TextEdit where
  range : Nat × Nat
  newText : String
deriving DecidableEq

/-- Embeds `AnnotatedEdit` from the `edits` module: a `(title, edit)` pair
(`for (title, edit) in edits` / `.map(|(_, b)| b)` in quickfix.rs). -/
def AnnotatedEdit := String × TextEdit

/-- Model of `lsp_types::Diagnostic`, keeping the fields the quickfix code
reads (`severity`, `code`, `data`) plus the range and message it carries
along. -/
structure Diagnostic where
  range : Nat × Nat
  severity : Option DiagnosticSeverity
  code : Option NumberOrString
  message : String
  data : Option Json

/-- Model of `lsp_types::TextDocumentIdentifier`. -/
structure TextDocumentIdentifier where
  uri : String

/-- Model of `lsp_types::WorkspaceEdit`; the `changes` HashMap is modelled
as an association list (the code only ever inserts a single key). -/
structure WorkspaceEdit where
  changes : Option (List (String × List TextEdit))
  document_changes : Option Unit
  change_annotations : Option Unit

/-- Model of `lsp_types::CodeActionKind::QUICKFIX`. -/
def CodeActionKind.QUICKFIX : String := "quickfix"

/-- Model of `lsp_types::CodeAction` with the fields the code sets. -/
structure CodeAction where
  title : String
  kind : Option String
  diagnostics : Option (List Diagnostic)
  is_preferred : Option Bool
  disabled : Option String
  data : Option Json
  command : Option Unit
  edit : Option WorkspaceEdit

/-- The project's Module Index entry (external collaborator): a module with
a name and the `ast.has_definition` / `ast.has_constructor` capabilities
used by quickfix.rs. -/
structure ModuleAst where
  has_definition : String → Bool
  has_constructor : String → Bool

/-- A checked module as seen from the LSP quickfix code. -/
structure Module where
  name : String
  ast : ModuleAst

/-- Embeds `compiler.project` with its `modules()` enumeration. -/
structure Project where
  modules : List Module

/-- Model of `LspProject`. -/
structure LspProject where
  project : Project

/-- Model of `edits::ParsedDocument` (external collaborator): can produce
an import edit for a module (optionally qualified to one symbol), or the
edit removing the import clause at a given offset. -/
structure ParsedDocument where
  «import» : Module → Option String → Option AnnotatedEdit
  remove_import : Nat → Bool → AnnotatedEdit

/-- Model of the `edits` module entry point `edits::parse_document`. -/
structure EditsApi where
  parse_document : TextDocumentIdentifier → Option ParsedDocument

/-- The diagnostic code constants of quickfix.rs (verbatim, including the
single colon in `unused:import::value`). -/
def UNKNOWN_VARIABLE : String := "aiken::check::unknown::variable"

def UNKNOWN_TYPE : String := "aiken::check::unknown::type"

def UNKNOWN_CONSTRUCTOR : String := "aiken::check::unknown::type_constructor"

def UNKNOWN_MODULE : String := "aiken::check::unknown::module"

def UNUSED_IMPORT_VALUE : String := "aiken::check::unused:import::value"

def UNUSED_IMPORT_MODULE : String := "aiken::check::unused::import::module"

/-- Errors for which a quickfix can be provided (`enum Quickfix`). -/
inductive Quickfix where
  | UnknownIdentifier (d : Diagnostic) : Quickfix
  | UnknownModule (d : Diagnostic) : Quickfix
  | UnknownConstructor (d : Diagnostic) : Quickfix
  | UnusedImports (ds : List Diagnostic) : Quickfix

/-- Embeds `match_code`: the diagnostic's code equals the expected string code and
its severity equals the expected severity. -/
def match_code (diagnostic : Diagnostic) (severity : DiagnosticSeverity)
    (expected : String) : Bool :=
  (diagnostic.code == some (NumberOrString.str expected))
    && (diagnostic.severity == some severity)

/-- Embeds `assert`: whether a diagnostic can be automatically fixed, mapping it to
at most one fix category. -/
def assert (diagnostic : Diagnostic) : Option Quickfix :=
  if match_code diagnostic .error UNKNOWN_VARIABLE
      || match_code diagnostic .error UNKNOWN_TYPE then
    some (Quickfix.UnknownIdentifier diagnostic)
  else if match_code diagnostic .error UNKNOWN_CONSTRUCTOR then
    some (Quickfix.UnknownConstructor diagnostic)
  else if match_code diagnostic .error UNKNOWN_MODULE then
    some (Quickfix.UnknownModule diagnostic)
  else if match_code diagnostic .warning UNUSED_IMPORT_VALUE
      || match_code diagnostic .warning UNUSED_IMPORT_MODULE then
    some (Quickfix.UnusedImports [diagnostic])
  else
    none

/-- Model of Rust `str::parse::<usize>`: an optional leading plus sign
followed by at least one decimal digit (machine-width overflow is not
modelled; the offsets are Nat). -/
def parse_usize (s : String) : Option Nat :=
  match s.data with
  | [] => none
  | c :: cs => if c = '+' then digits_to_nat? cs else digits_to_nat? (c :: cs)

/-- Model of Rust `bool::from_str`: exactly the literals true and false. -/
def parse_bool (s : String) : Option Bool :=
  if s = "true" then some true
  else if s = "false" then some false
  else none

/-- The body of the `for data in datas.iter().rev().flatten()` loop of
`unused_imports`, as structural recursion over the already reversed and
flattened list. A `panic!` / `.expect(...)` of the source is modelled as
`Except.error` with the source's message. Non-string JSON payloads fall
through the `if let Value::String` and are skipped. -/
def process_unused_import_datas (parsed_document : ParsedDocument) :
    List Json → Except String (List AnnotatedEdit)
  | [] => Except.ok []
  | data :: rest =>
    match data with
    | Json.str args =>
      match split_on_comma args with
      | [is_qualified, start] =>
        match parse_usize start with
        | none => Except.error "malformed unused_imports argument: not a usize"
        | some start =>
          match parse_bool is_qualified with
          | none => Except.error "malformed unused_imports argument: not a bool"
          | some is_qualified =>
            (process_unused_import_datas parsed_document rest).map
              (fun edits => parsed_document.remove_import start is_qualified :: edits)
      | _ => Except.error "malformed unused_imports arguments: not a 2-tuple"
    | _ => process_unused_import_datas parsed_document rest

/-- Embeds `unused_imports`: iterate the payloads in reverse of their arrival
order, skipping absent payloads (`.iter().rev().flatten()`). -/
def unused_imports (parsed_document : ParsedDocument)
    (datas : List (Option Json)) : Except String (List AnnotatedEdit) :=
  process_unused_import_datas parsed_document (datas.reverse.filterMap id)

/-- Embeds `unknown_identifier`: one candidate per module defining the name, when
the Document Edit Provider yields an edit. -/
def unknown_identifier (compiler : LspProject) (parsed_document : ParsedDocument)
    (data : Option Json) : List AnnotatedEdit :=
  match data with
  | some (Json.str var_name) =>
    compiler.project.modules.filterMap (fun module =>
      if module.ast.has_definition var_name then
        parsed_document.«import» module (some var_name)
      else
        none)
  | _ => []

/-- Embeds `unknown_constructor`: as `unknown_identifier` but for constructors. -/
def unknown_constructor (compiler : LspProject) (parsed_document : ParsedDocument)
    (data : Option Json) : List AnnotatedEdit :=
  match data with
  | some (Json.str constructor_name) =>
    compiler.project.modules.filterMap (fun module =>
      if module.ast.has_constructor constructor_name then
        parsed_document.«import» module (some constructor_name)
      else
        none)
  | _ => []

/-- Embeds `unknown_module`: one whole-module import candidate per module whose
full name ends with the payload. -/
def unknown_module (compiler : LspProject) (parsed_document : ParsedDocument)
    (data : Option Json) : List AnnotatedEdit :=
  match data with
  | some (Json.str module_name) =>
    compiler.project.modules.filterMap (fun module =>
      if ends_with module.name module_name then
        parsed_document.«import» module none
      else
        none)
  | _ => []

/-- Embeds `each_as_distinct_action`: push one code action per candidate edit, each
carrying only its own edit for the source document. -/
def each_as_distinct_action (actions : List CodeAction)
    (text_document : TextDocumentIdentifier) (diagnostic : Diagnostic)
    (edits : List AnnotatedEdit) : List CodeAction :=
  actions ++ edits.map (fun annotated =>
    { title := annotated.1
      kind := some CodeActionKind.QUICKFIX
      diagnostics := some [diagnostic]
      is_preferred := some true
      disabled := none
      data := none
      command := none
      edit := some
        { changes := some [(text_document.uri, [annotated.2])]
          document_changes := none
          change_annotations := none } })

/-- Embeds `as_single_action`: push one combined code action holding every
candidate edit for the source document. -/
def as_single_action (actions : List CodeAction)
    (text_document : TextDocumentIdentifier) (diagnostics : List Diagnostic)
    (title : String) (edits : List AnnotatedEdit) : List CodeAction :=
  actions ++
    [{ title := title
       kind := some CodeActionKind.QUICKFIX
       diagnostics := some diagnostics
       is_preferred := some true
       disabled := none
       data := none
       command := none
       edit := some
         { changes := some [(text_document.uri, edits.map (fun annotated => annotated.2))]
           document_changes := none
           change_annotations := none } }]

/-- Embeds `quickfix`: the request entry point. An unparseable document yields no
actions; a malformed unused-import payload aborts the request (the source's
`panic!` modelled as `Except.error`). -/
def quickfix (editsApi : EditsApi) (compiler : LspProject)
    (text_document : TextDocumentIdentifier) (qf : Quickfix) :
    Except String (List CodeAction) :=
  match editsApi.parse_document text_document with
  | none => Except.ok []
  | some parsed_document =>
    match qf with
    | Quickfix.UnknownIdentifier diagnostic =>
      Except.ok (each_as_distinct_action [] text_document diagnostic
        (unknown_identifier compiler parsed_document diagnostic.data))
    | Quickfix.UnknownModule diagnostic =>
      Except.ok (each_as_distinct_action [] text_document diagnostic
        (unknown_module compiler parsed_document diagnostic.data))
    | Quickfix.UnknownConstructor diagnostic =>
      Except.ok (each_as_distinct_action [] text_document diagnostic
        (unknown_constructor compiler parsed_document diagnostic.data))
    | Quickfix.UnusedImports diagnostics =>
      (unused_imports parsed_document
          (diagnostics.map (fun diagnostic => diagnostic.data))).map
        (fun edits =>
          as_single_action [] text_document diagnostics
            "Remove redundant imports" edits)

/-- Analysis helper: decode one unused-import payload string as the source
does (exactly two comma-separated fields, the second a usize, the first a
bool), returning the `(is_qualified, start)` pair. -/
def decode_payload (s : String) : Option (Bool × Nat) :=
  match split_on_comma s with
  | [is_qualified, start] =>
    match parse_usize start, parse_bool is_qualified with
    | some start, some is_qualified => some (is_qualified, start)
    | _, _ => none
  | _ => none

/-- Analysis helper: the error message a malformed payload string raises
(meaningful only when `decode_payload` fails). -/
def payload_error (s : String) : String :=
  match split_on_comma s with
  | [is_qualified, start] =>
    match parse_usize start with
    | none => "malformed unused_imports argument: not a usize"
    | some _ =>
      match parse_bool is_qualified with
      | none => "malformed unused_imports argument: not a bool"
      | some _ => "no error"
  | _ => "malformed unused_imports arguments: not a 2-tuple"

/-- Analysis helper: the removal edit one JSON payload contributes, if any. -/
def json_edit (parsed_document : ParsedDocument) : Json → Option AnnotatedEdit
  | Json.str s =>
    (decode_payload s).map (fun p => parsed_document.remove_import p.2 p.1)
  | _ => none

/-- Analysis helper: the removal edit one diagnostic contributes, if any. -/
def diagnostic_edit (parsed_document : ParsedDocument) (d : Diagnostic) :
    Option AnnotatedEdit :=
  d.data.bind (json_edit parsed_document)

/-- Analysis helper: whether an optional payload is a JSON string. -/
def is_string_payload : Option Json → Bool
  | some (Json.str _) => true
  | _ => false

/-- The originating diagnostics a `Quickfix` value carries. -/
def Quickfix.sourceDiagnostics : Quickfix → List Diagnostic
  | Quickfix.UnknownIdentifier d => [d]
  | Quickfix.UnknownModule d => [d]
  | Quickfix.UnknownConstructor d => [d]
  | Quickfix.UnusedImports ds => ds

/-- Analysis helper: a diagnostic payload is not malformed when it is
absent, not a JSON string, or a JSON string that decodes (malformed strings
are the only payloads aborting the request). -/
def payload_not_malformed (d : Diagnostic) : Bool :=
  match d.data with
  | some (Json.str s) => (decode_payload s).isSome
  | _ => true

/-- Concrete data used to instantiate hypothesis-bearing theorems: a
Document Edit Provider that always yields an edit, a text document, a small
project, and sample diagnostics. -/
def exPd : ParsedDocument :=
  { «import» := fun module _qualified =>
      some ("Use " ++ module.name, { range := (0, 0), newText := module.name })
    remove_import := fun start is_qualified =>
      ("Remove", { range := (start, start), newText := if is_qualified then "q" else "" }) }

/-- An edits API that parses every document to `exPd`. -/
def exApi : EditsApi := { parse_document := fun _ => some exPd }

/-- An edits API for which no document parses. -/
def noParseApi : EditsApi := { parse_document := fun _ => none }

/-- The sample text document. -/
def exTd : TextDocumentIdentifier := { uri := "file:///lib/foo.ak" }

/-- An unused-import warning diagnostic with the given payload. -/
def mkUnused (payload : Option Json) : Diagnostic :=
  { range := (0, 0)
    severity := some DiagnosticSeverity.warning
    code := some (NumberOrString.str UNUSED_IMPORT_VALUE)
    message := "unused import"
    data := payload }

/-- Sample unused-import diagnostics (the spec's §8 batch). -/
def exD1 : Diagnostic := mkUnused (some (Json.str "false,10"))

/-- Second sample unused-import diagnostic. -/
def exD2 : Diagnostic := mkUnused (some (Json.str "true,50"))

/-- Third sample unused-import diagnostic. -/
def exD3 : Diagnostic := mkUnused (some (Json.str "false,5"))

/-- An unused-import diagnostic with a malformed payload. -/
def exBad : Diagnostic := mkUnused (some (Json.str "notabool,10"))

/-- An unused-import diagnostic with a missing payload. -/
def exNone : Diagnostic := mkUnused none

/-- Sample module `x/bar`, publicly defining `foo`. -/
def exModA : Module :=
  { name := "x/bar"
    ast := { has_definition := fun s => s == "foo", has_constructor := fun _ => false } }

/-- Sample module `y/z/bar`, publicly defining `foo`. -/
def exModB : Module :=
  { name := "y/z/bar"
    ast := { has_definition := fun s => s == "foo", has_constructor := fun _ => false } }

/-- Sample module `barn`, defining nothing. -/
def exModC : Module :=
  { name := "barn"
    ast := { has_definition := fun _ => false, has_constructor := fun _ => false } }

/-- The sample project. -/
def exCompiler : LspProject := { project := { modules := [exModA, exModB, exModC] } }

/-- An unknown-variable error diagnostic for `foo`. -/
def exIdD : Diagnostic :=
  { range := (3, 6)
    severity := some DiagnosticSeverity.error
    code := some (NumberOrString.str UNKNOWN_VARIABLE)
    message := "unknown variable"
    data := some (Json.str "foo") }

/-- An unknown-variable diagnostic carried at warning severity (the
advisory twin that must not be fixed). -/
def exWarnVar : Diagnostic :=
  { range := (3, 6)
    severity := some DiagnosticSeverity.warning
    code := some (NumberOrString.str UNKNOWN_VARIABLE)
    message := "unknown variable"
    data := some (Json.str "foo") }

/-- A diagnostic whose payload is a JSON number, not a string. -/
def exNumD : Diagnostic :=
  { range := (0, 0)
    severity := some DiagnosticSeverity.error
    code := some (NumberOrString.str UNKNOWN_VARIABLE)
    message := "unknown variable"
    data := some (Json.num 3) }

/-- The code action importing `foo` from `x/bar` that the sample project
yields. -/
def exActionA : CodeAction :=
  { title := "Use x/bar"
    kind := some CodeActionKind.QUICKFIX
    diagnostics := some [exIdD]
    is_preferred := some true
    disabled := none
    data := none
    command := none
    edit := some
      { changes := some [("file:///lib/foo.ak",
          [{ range := (0, 0), newText := "x/bar" }])]
        document_changes := none
        change_annotations := none } }

/-- The code action importing `foo` from `y/z/bar` that the sample project
yields. -/
def exActionB : CodeAction :=
  { title := "Use y/z/bar"
    kind := some CodeActionKind.QUICKFIX
    diagnostics := some [exIdD]
    is_preferred := some true
    disabled := none
    data := none
    command := none
    edit := some
      { changes := some [("file:///lib/foo.ak",
          [{ range := (0, 0), newText := "y/z/bar" }])]
        document_changes := none
        change_annotations := none } }

/-- The spec's fixed classification table (§4.1), written from the spec's
words for comparison with `assert`. -/
def spec_fix_table (d : Diagnostic) : Bool :=
  ((d.severity == some DiagnosticSeverity.error)
      && ((d.code == some (NumberOrString.str UNKNOWN_VARIABLE))
        || (d.code == some (NumberOrString.str UNKNOWN_TYPE))
        || (d.code == some (NumberOrString.str UNKNOWN_CONSTRUCTOR))
        || (d.code == some (NumberOrString.str UNKNOWN_MODULE))))
    || ((d.severity == some DiagnosticSeverity.warning)
      && ((d.code == some (NumberOrString.str UNUSED_IMPORT_VALUE))
        || (d.code == some (NumberOrString.str UNUSED_IMPORT_MODULE))))

end AikenLsp

namespace AikenDocs

/-- One argument of a record constructor (aiken-lang AST, external). -/
structure RecordConstructorArg where
  label : Option String
  doc : Option String

/-- A record constructor of a data type (aiken-lang AST, external). -/
structure RecordConstructor where
  doc : Option String
  arguments : List RecordConstructorArg

/-- A function definition (aiken-lang AST, external), keeping the fields
docs.rs reads. -/
structure FunctionDef where
  public : Bool
  name : String
  doc : Option String

/-- A module constant definition (aiken-lang AST, external). -/
structure ModuleConstantDef where
  public : Bool
  name : String
  doc : Option String

/-- A type alias definition (aiken-lang AST, external). -/
structure TypeAliasDef where
  public : Bool
  «alias» : String
  doc : Option String
  parameters : List String

/-- A data type definition (aiken-lang AST, external). `opaq` embeds the
Rust field flagging data types whose constructors are hidden. -/
structure DataTypeDef where
  public : Bool
  opaq : Bool
  name : String
  doc : Option String
  parameters : List String
  constructors : List RecordConstructor

/-- A typed definition (aiken-lang AST, external); `other` stands for the
variants docs.rs never documents (use, test, validator). -/
inductive Definition where
  | fn (d : FunctionDef) : Definition
  | dataType (d : DataTypeDef) : Definition
  | typeAlias (d : TypeAliasDef) : Definition
  | moduleConstant (d : ModuleConstantDef) : Definition
  | other : Definition

/-- The typed module AST as read by docs.rs: its definitions and its
module-level doc comments. -/
structure TypedModuleAst where
  definitions : List Definition
  docs : List String

/-- A checked module of the project. -/
structure CheckedModule where
  name : String
  ast : TypedModuleAst

/-- Embeds `config::Repository`. -/
structure Repository where
  user : String
  project : String
  platform : String

/-- The project name (owner/repo pair) of `config::Config`. -/
structure PackageName where
  owner : String
  repo : String

/-- Display form of a package name, `owner/repo`. -/
def PackageName.display (n : PackageName) : String :=
  n.owner ++ "/" ++ n.repo

/-- Embeds `config::Config`, keeping the fields docs.rs reads. -/
structure Config where
  name : PackageName
  version : String
  repository : Option Repository

/-- Embeds `DocFile`: a generated leaf artifact (path plus content). The PathBuf
is modelled as the path string. -/
structure DocFile where
  path : String
  content : String

/-- Embeds `DocLink` (indent, name, path). -/
structure DocLink where
  indent : Nat
  name : String
  path : String

/-- Embeds `DocFunction`. -/
structure DocFunction where
  name : String
  signature : String
  documentation : String
  raw_documentation : String
  source_url : String

/-- Embeds `DocConstant`. -/
structure DocConstant where
  name : String
  definition : String
  documentation : String
  raw_documentation : String
  source_url : String

/-- Embeds `DocTypeConstructor`. -/
structure DocTypeConstructor where
  definition : String
  documentation : String
  raw_documentation : String

/-- Embeds `DocType`. -/
structure DocType where
  name : String
  definition : String
  documentation : String
  raw_documentation : String
  constructors : List DocTypeConstructor
  parameters : List String
  opaq : Bool
  source_url : String

/-- Embeds `SearchIndex`: one entry of the client-side search index. -/
structure SearchIndex where
  doc : String
  title : String
  content : String
  url : String

/-- Embeds `ModuleTemplate` (askama template data). -/
structure ModuleTemplate where
  aiken_version : String
  breadcrumbs : String
  page_title : String
  module_name : String
  project_name : String
  project_version : String
  modules : List DocLink
  functions : List DocFunction
  types : List DocType
  constants : List DocConstant
  documentation : String
  source : DocLink
  timestamp : String

/-- Embeds `PageTemplate` (askama template data). -/
structure PageTemplate where
  aiken_version : String
  breadcrumbs : String
  page_title : String
  project_name : String
  project_version : String
  modules : List DocLink
  content : String
  source : DocLink
  timestamp : String

/-- The external collaborators docs.rs calls into, modelled as abstract
functions: the askama template renderers, the pulldown-cmark markdown
renderer, the aiken-lang pretty-printing formatter, serde_json
serialization, the `link_tree` submodule (declared by docs.rs but not among
the given sources), the compile-time `include_str!` asset contents, the
README read from disk, the crate version and the current timestamp in
seconds. -/
structure DocsEnv where
  render_module_template : ModuleTemplate → String
  render_page_template : PageTemplate → String
  render_markdown : String → String
  docs_fn_signature : FunctionDef → String
  docs_const_expr : ModuleConstantDef → String
  docs_type_alias : TypeAliasDef → String
  docs_data_type : DataTypeDef → String
  docs_opaq_data_type : DataTypeDef → String
  docs_record_constructor : RecordConstructor → String
  json_to_string : List SearchIndex → String
  link_tree_to_vec : List String → List DocLink
  favicon_svg : String
  css_atom_one_light : String
  css_atom_one_dark : String
  css_index : String
  js_highlight : String
  js_highlightjs_aiken : String
  js_lunr : String
  js_index : String
  readme_content : Option String
  version : String
  timestamp : Nat

/-- Embeds `DocTypeConstructor::from_record_constructor`. -/
def DocTypeConstructor.from_record_constructor (env : DocsEnv)
    (constructor : RecordConstructor) : DocTypeConstructor :=
  let doc_args := String.intercalate "\n"
    (constructor.arguments.filterMap (fun arg =>
      match arg.label, arg.doc with
      | some label, some doc =>
        some ("#### `." ++ label ++ "`\n" ++ doc ++ "\n<hr/>\n")
      | _, _ => none))
  { definition := env.docs_record_constructor constructor
    documentation :=
      (constructor.doc.map (fun doc =>
        env.render_markdown (doc ++ "\n" ++ doc_args))).getD ""
    raw_documentation := constructor.doc.getD "" }

/-- Embeds `DocFunction::from_definition`. -/
def DocFunction.from_definition (env : DocsEnv) :
    Definition → Option DocFunction
  | Definition.fn func_def =>
    if func_def.public then
      some
        { name := func_def.name
          documentation := (func_def.doc.map env.render_markdown).getD ""
          raw_documentation := func_def.doc.getD ""
          signature := env.docs_fn_signature func_def
          source_url := "#todo" }
    else none
  | _ => none

/-- Embeds `DocConstant::from_definition`. -/
def DocConstant.from_definition (env : DocsEnv) :
    Definition → Option DocConstant
  | Definition.moduleConstant const_def =>
    if const_def.public then
      some
        { name := const_def.name
          documentation := (const_def.doc.map env.render_markdown).getD ""
          raw_documentation := const_def.doc.getD ""
          definition := env.docs_const_expr const_def
          source_url := "#todo" }
    else none
  | _ => none

/-- Embeds `DocType::from_definition`: public type aliases and public data types
(hidden-constructor ones rendered without their constructors). -/
def DocType.from_definition (env : DocsEnv) : Definition → Option DocType
  | Definition.typeAlias info =>
    if info.public then
      some
        { name := info.«alias»
          definition := env.docs_type_alias info
          documentation := (info.doc.map env.render_markdown).getD ""
          raw_documentation := info.doc.getD ""
          constructors := []
          parameters := info.parameters
          opaq := false
          source_url := "#todo" }
    else none
  | Definition.dataType info =>
    if info.public && !info.opaq then
      some
        { name := info.name
          definition := env.docs_data_type info
          documentation := (info.doc.map env.render_markdown).getD ""
          raw_documentation := info.doc.getD ""
          constructors :=
            info.constructors.map (DocTypeConstructor.from_record_constructor env)
          parameters := info.parameters
          opaq := info.opaq
          source_url := "#todo" }
    else if info.public && info.opaq then
      some
        { name := info.name
          definition := env.docs_opaq_data_type info
          documentation := (info.doc.map env.render_markdown).getD ""
          raw_documentation := info.doc.getD ""
          constructors := []
          parameters := info.parameters
          opaq := info.opaq
          source_url := "#todo" }
    else none
  | _ => none

/-- Embeds `SearchIndex::from_function`. -/
def SearchIndex.from_function (module : CheckedModule)
    (function : DocFunction) : SearchIndex :=
  { doc := module.name
    title := function.name
    content := function.signature ++ "\n" ++ function.raw_documentation
    url := module.name ++ ".html#" ++ function.name }

/-- Embeds `SearchIndex::from_type`. -/
def SearchIndex.from_type (module : CheckedModule) (type_info : DocType) :
    SearchIndex :=
  let constructors := String.intercalate "\n"
    (type_info.constructors.map (fun constructor =>
      constructor.definition ++ "\n" ++ constructor.raw_documentation))
  { doc := module.name
    title := type_info.name
    content := type_info.definition ++ "\n" ++ type_info.raw_documentation
      ++ "\n" ++ constructors
    url := module.name ++ ".html#" ++ type_info.name }

/-- Embeds `SearchIndex::from_constant`. -/
def SearchIndex.from_constant (module : CheckedModule)
    (constant : DocConstant) : SearchIndex :=
  { doc := module.name
    title := constant.name
    content := constant.definition ++ "\n" ++ constant.raw_documentation
    url := module.name ++ ".html#" ++ constant.name }

/-- Embeds `SearchIndex::from_module`. -/
def SearchIndex.from_module (module : CheckedModule) : SearchIndex :=
  { doc := module.name
    title := module.name
    content := String.intercalate "\n" module.ast.docs
    url := module.name ++ ".html" }

/-- Embeds `to_breadcrumbs`: one `..` per path segment after the first, else `.`
(the leading slash stripped first). -/
def to_breadcrumbs (path : String) : String :=
  let stripped :=
    match path.data with
    | '/' :: rest => String.mk rest
    | _ => path
  let breadcrumbs := String.intercalate "/"
    (((split_char '/' stripped.data).drop 1).map (fun _ => ".."))
  if breadcrumbs = "" then "." else breadcrumbs

/-- Embeds `escape_html_content`: HTML entity escaping for the search index. The
single-character Rust `str::replace` calls are performed per character. -/
def escape_html_content (it : String) : String :=
  String.mk (it.data.foldr
    (fun c acc =>
      if c = '&' then "&amp;".data ++ acc
      else if c = '<' then "&lt;".data ++ acc
      else if c = '>' then "&gt;".data ++ acc
      else if c = '"' then "&quot;".data ++ acc
      else if c = '\x27' then "&#39;".data ++ acc
      else c :: acc)
    [])

/-- Embeds `escape_html_contents`: escape the content field of every index entry. -/
def escape_html_contents (indexes : List SearchIndex) : List SearchIndex :=
  indexes.map (fun idx =>
    { doc := idx.doc
      title := idx.title
      content := escape_html_content idx.content
      url := idx.url })

/-- Whether one definition is rendered by the documentation (a public
function, data type, type alias or module constant), as matched by
`generate_modules_links`. -/
def has_public_definition : Definition → Bool
  | Definition.fn d => d.public
  | Definition.dataType d => d.public
  | Definition.typeAlias d => d.public
  | Definition.moduleConstant d => d.public
  | Definition.other => false

/-- Embeds `generate_modules_links`: name-sorted non-empty modules fed to the
`link_tree` collaborator. -/
def generate_modules_links (env : DocsEnv) (modules : List CheckedModule) :
    List DocLink :=
  let non_empty_modules := modules.filter
    (fun module => module.ast.definitions.any has_public_definition)
  env.link_tree_to_vec
    ((non_empty_modules.map (fun module => module.name)).mergeSort (fun a b => a ≤ b))

/-- Embeds `generate_module`: the search-index entries and the HTML page of one
module. The page path is the module name plus `.html`. -/
def generate_module (env : DocsEnv) (config : Config) (module : CheckedModule)
    (modules : List DocLink) (source : DocLink) (timestamp : Nat) :
    List SearchIndex × DocFile :=
  let functions :=
    module.ast.definitions.filterMap (DocFunction.from_definition env)
  let types :=
    module.ast.definitions.filterMap (DocType.from_definition env)
  let constants :=
    module.ast.definitions.filterMap (DocConstant.from_definition env)
  let search_indexes :=
    functions.map (SearchIndex.from_function module)
      ++ types.map (SearchIndex.from_type module)
      ++ constants.map (SearchIndex.from_constant module)
  let is_empty := functions.isEmpty && types.isEmpty && constants.isEmpty
  let search_indexes :=
    search_indexes ++ if is_empty then [] else [SearchIndex.from_module module]
  let template : ModuleTemplate :=
    { aiken_version := env.version
      breadcrumbs := to_breadcrumbs module.name
      documentation :=
        env.render_markdown (String.intercalate "\n" module.ast.docs)
      modules := modules
      project_name := config.name.repo
      page_title := module.name ++ " - " ++ config.name.display
      module_name := module.name
      project_version := config.version
      functions := functions
      types := types
      constants := constants
      source := source
      timestamp := Nat.repr timestamp }
  (search_indexes,
    { path := module.name ++ ".html"
      content := env.render_module_template template })

/-- Embeds `generate_static_assets`: the fixed assets plus the search-index
script. -/
def generate_static_assets (env : DocsEnv)
    (search_indexes : List SearchIndex) : List DocFile :=
  [ { path := "favicon.svg", content := env.favicon_svg }
  , { path := "css/atom-one-light.min.css", content := env.css_atom_one_light }
  , { path := "css/atom-one-dark.min.css", content := env.css_atom_one_dark }
  , { path := "css/index.css", content := env.css_index }
  , { path := "js/highlight.min.js", content := env.js_highlight }
  , { path := "js/highlightjs-aiken.js", content := env.js_highlightjs_aiken }
  , { path := "js/lunr.min.js", content := env.js_lunr }
  , { path := "js/index.js", content := env.js_index }
  , { path := "search-data.js"
      content := "window.Aiken.initSearch("
        ++ env.json_to_string (escape_html_contents search_indexes) ++ ");" } ]

/-- Embeds `generate_readme`: the index page built from the project README. -/
def generate_readme (env : DocsEnv) (config : Config)
    (modules : List DocLink) (source : DocLink) (timestamp : Nat) : DocFile :=
  let template : PageTemplate :=
    { aiken_version := env.version
      breadcrumbs := "."
      modules := modules
      project_name := config.name.repo
      page_title := config.name.display
      project_version := config.version
      content := env.render_markdown (env.readme_content.getD "")
      source := source
      timestamp := Nat.repr timestamp }
  { path := "index.html", content := env.render_page_template template }

/-- The `for module in &modules` accumulation loop of `generate_all`:
collect the search indexes and the page files of the modules whose index
list is non-empty. -/
def collect_module_files (env : DocsEnv) (config : Config)
    (modules_links : List DocLink) (source : DocLink) (timestamp : Nat) :
    List CheckedModule → List SearchIndex × List DocFile
  | [] => ([], [])
  | module :: rest =>
    let indexPage :=
      generate_module env config module modules_links source timestamp
    let acc := collect_module_files env config modules_links source timestamp rest
    if indexPage.1.isEmpty then acc
    else (indexPage.1 ++ acc.1, indexPage.2 :: acc.2)

/-- Embeds `generate_all`: module pages, then the static assets (search script
last among them), then the readme page. -/
def generate_all (env : DocsEnv) (config : Config)
    (modules : List CheckedModule) : List DocFile :=
  let timestamp := env.timestamp
  let modules_links := generate_modules_links env modules
  let source :=
    match config.repository with
    | none => ({ indent := 0, name := "", path := "" } : DocLink)
    | some repo =>
      { indent := 0
        name := repo.user ++ "/" ++ repo.project
        path := "https://" ++ repo.platform ++ ".com/" ++ repo.user ++ "/"
          ++ repo.project }
  let collected :=
    collect_module_files env config modules_links source timestamp modules
  collected.2 ++ generate_static_assets env collected.1
    ++ [generate_readme env config modules_links source timestamp]

end AikenDocs

namespace AikenLsp

example : split_on_comma "false,10" = ["false", "10"] := rfl

example : split_on_comma "" = [""] := rfl

example : split_on_comma "true,5,9" = ["true", "5", "9"] := rfl

example : decode_payload "false,10" = some (false, 10) := rfl

example : decode_payload "notabool,10" = none := rfl

example : decode_payload "10" = none := rfl

example : decode_payload "true,-10" = none := rfl

example : ends_with "x/bar" "bar" = true := by decide

example : ends_with "barn" "bar" = false := by decide

example : ends_with "foobar" "bar" = true := by decide

/-- One step of the loop on a string payload: either the payload decodes
and its removal edit is produced, or the loop aborts with the payload's
error. -/
theorem process_cons_str (pd : ParsedDocument) (s : String)
    (rest : List Json) :
    process_unused_import_datas pd (Json.str s :: rest)
      = match decode_payload s with
        | some p =>
          (process_unused_import_datas pd rest).map
            (fun edits => pd.remove_import p.2 p.1 :: edits)
        | none => Except.error (payload_error s) := by
  cases hq : split_on_comma s with
  | nil =>
    simp [process_unused_import_datas, decode_payload, payload_error, hq]
  | cons q t =>
    cases t with
    | nil =>
      simp [process_unused_import_datas, decode_payload, payload_error, hq]
    | cons n t2 =>
      cases t2 with
      | cons u t3 =>
        simp [process_unused_import_datas, decode_payload, payload_error, hq]
      | nil =>
        cases hu : parse_usize n with
        | none =>
          simp [process_unused_import_datas, decode_payload, payload_error,
            hq, hu]
        | some k2 =>
          cases hb : parse_bool q with
          | none =>
            simp [process_unused_import_datas, decode_payload, payload_error,
              hq, hu, hb]
          | some b2 =>
            simp [process_unused_import_datas, decode_payload, payload_error,
              hq, hu, hb]

/-- A string payload that decodes makes the loop produce its removal edit
and continue. -/
theorem process_cons_str_ok (pd : ParsedDocument) (s : String)
    (rest : List Json) (b : Bool) (k : Nat)
    (h : decode_payload s = some (b, k)) :
    process_unused_import_datas pd (Json.str s :: rest)
      = (process_unused_import_datas pd rest).map
          (fun edits => pd.remove_import k b :: edits) := by
  rw [process_cons_str, h]

/-- A string payload that fails to decode aborts the loop with an error. -/
theorem process_cons_str_err (pd : ParsedDocument) (s : String)
    (rest : List Json) (h : decode_payload s = none) :
    ∃ msg, process_unused_import_datas pd (Json.str s :: rest)
      = Except.error msg :=
  ⟨payload_error s, by rw [process_cons_str, h]⟩

/-- A payload that is not a JSON string is skipped by the loop. -/
theorem process_cons_nonstr (pd : ParsedDocument) (j : Json)
    (rest : List Json) (hj : ∀ s, j ≠ Json.str s) :
    process_unused_import_datas pd (j :: rest)
      = process_unused_import_datas pd rest := by
  cases j with
  | str s => exact absurd rfl (hj s)
  | null => rfl
  | bool b => rfl
  | num n => rfl
  | arr xs => rfl
  | obj kvs => rfl

/-- A payload that is not a JSON string contributes no edit. -/
theorem json_edit_nonstr (pd : ParsedDocument) (j : Json)
    (hj : ∀ s, j ≠ Json.str s) : json_edit pd j = none := by
  cases j with
  | str s => exact absurd rfl (hj s)
  | null => rfl
  | bool b => rfl
  | num n => rfl
  | arr xs => rfl
  | obj kvs => rfl

/-- When every string payload decodes, the loop succeeds and yields exactly
the decoded removal edits, in list order. -/
theorem process_ok (pd : ParsedDocument) (l : List Json)
    (h : ∀ j ∈ l, ∀ s, j = Json.str s → (decode_payload s).isSome) :
    process_unused_import_datas pd l
      = Except.ok (l.filterMap (json_edit pd)) := by
  revert h
  induction l with
  | nil => intro h; rfl
  | cons j rest ih =>
    intro h
    have hrest := ih (fun j2 hj2 => h j2 (List.mem_cons_of_mem _ hj2))
    by_cases hstr : ∃ s, j = Json.str s
    · obtain ⟨s, rfl⟩ := hstr
      have hs := h (Json.str s) (List.Mem.head _) s rfl
      obtain ⟨⟨b, k⟩, hdec⟩ := Option.isSome_iff_exists.mp hs
      rw [process_cons_str_ok pd s rest b k hdec, hrest]
      simp [List.filterMap_cons, json_edit, hdec, Except.map]
    · have hj : ∀ s, j ≠ Json.str s := fun s hs => hstr ⟨s, hs⟩
      rw [process_cons_nonstr pd j rest hj, hrest, List.filterMap_cons,
        json_edit_nonstr pd j hj]

/-- One undecodable string payload anywhere in the list makes the whole
loop fail. -/
theorem process_error (pd : ParsedDocument) (l : List Json)
    (h : ∃ j ∈ l, ∃ s, j = Json.str s ∧ decode_payload s = none) :
    ∃ msg, process_unused_import_datas pd l = Except.error msg := by
  revert h
  induction l with
  | nil => rintro ⟨j, hj, _⟩; cases hj
  | cons j rest ih =>
    rintro ⟨j2, hj2, s, hjs, hdec⟩
    rcases List.mem_cons.mp hj2 with hhead | htail
    · subst hhead; subst hjs
      exact process_cons_str_err pd s rest hdec
    · obtain ⟨msg, hmsg⟩ := ih ⟨j2, htail, s, hjs, hdec⟩
      by_cases hstr : ∃ s2, j = Json.str s2
      · obtain ⟨s2, rfl⟩ := hstr
        cases hdec2 : decode_payload s2 with
        | none => exact process_cons_str_err pd s2 rest hdec2
        | some p =>
          refine ⟨msg, ?_⟩
          rw [process_cons_str_ok pd s2 rest p.1 p.2 (by rw [hdec2]), hmsg]
          rfl
      · have hj : ∀ s2, j ≠ Json.str s2 := fun s2 hs2 => hstr ⟨s2, hs2⟩
        exact ⟨msg, by rw [process_cons_nonstr pd j rest hj, hmsg]⟩

/-- The error a malformed string payload raises does not depend on the
rest of the list. -/
theorem process_cons_str_err_congr (pd : ParsedDocument) (s : String)
    (h : decode_payload s = none) (rest rest2 : List Json) :
    process_unused_import_datas pd (Json.str s :: rest)
      = process_unused_import_datas pd (Json.str s :: rest2) := by
  rw [process_cons_str, process_cons_str, h]

/-- Skipped payloads are invisible to the loop: removing a non-string
entry anywhere leaves the outcome unchanged. -/
theorem process_skip (pd : ParsedDocument) (j : Json)
    (hj : ∀ s, j ≠ Json.str s) (l1 l2 : List Json) :
    process_unused_import_datas pd (l1 ++ j :: l2)
      = process_unused_import_datas pd (l1 ++ l2) := by
  induction l1 with
  | nil => exact process_cons_nonstr pd j l2 hj
  | cons x xs ih =>
    rw [List.cons_append, List.cons_append]
    by_cases hstr : ∃ s, x = Json.str s
    · obtain ⟨s, rfl⟩ := hstr
      cases hdec : decode_payload s with
      | none => exact process_cons_str_err_congr pd s hdec _ _
      | some p =>
        rw [process_cons_str_ok pd s _ p.1 p.2 (by rw [hdec]),
          process_cons_str_ok pd s _ p.1 p.2 (by rw [hdec]), ih]
    · have hx : ∀ s, x ≠ Json.str s := fun s hs => hstr ⟨s, hs⟩
      rw [process_cons_nonstr pd x _ hx, process_cons_nonstr pd x _ hx, ih]

/-- Evaluating `unused_imports` on a batch with no malformed string payload: the
reversed, flattened decode of every payload. -/
theorem unused_imports_ok (pd : ParsedDocument) (datas : List (Option Json))
    (h : ∀ o ∈ datas, ∀ s, o = some (Json.str s) → (decode_payload s).isSome) :
    unused_imports pd datas
      = Except.ok (datas.reverse.filterMap (fun o => o.bind (json_edit pd))) := by
  have hcond : ∀ j ∈ datas.reverse.filterMap id, ∀ s, j = Json.str s →
      (decode_payload s).isSome := by
    intro j hj s hjs
    obtain ⟨o, ho, hoj⟩ := List.mem_filterMap.mp hj
    subst hjs
    exact h o (List.mem_reverse.mp ho) s hoj
  unfold unused_imports
  rw [process_ok pd _ hcond, List.filterMap_filterMap]
  rfl

/-- Evaluating `unused_imports` on a batch holding one malformed string payload
fails. -/
theorem unused_imports_err (pd : ParsedDocument) (datas : List (Option Json))
    (h : ∃ o ∈ datas, ∃ s, o = some (Json.str s) ∧ decode_payload s = none) :
    ∃ msg, unused_imports pd datas = Except.error msg := by
  obtain ⟨o, ho, s, hos, hdec⟩ := h
  apply process_error
  refine ⟨Json.str s, List.mem_filterMap.mpr ⟨o, List.mem_reverse.mpr ho, ?_⟩,
    s, rfl, hdec⟩
  rw [hos]
  rfl

/-- Reversing the payload projection commutes with collecting the edits. -/
theorem map_data_reverse_filterMap (pd : ParsedDocument)
    (ds : List Diagnostic) :
    ((ds.map (fun d => d.data)).reverse).filterMap
        (fun o => o.bind (json_edit pd))
      = ds.reverse.filterMap (diagnostic_edit pd) := by
  rw [← List.map_reverse, List.filterMap_map]
  rfl

/-- On a batch with no malformed payload, one edit is collected per
string payload. -/
theorem filterMap_diagnostic_edit_length (pd : ParsedDocument)
    (ds : List Diagnostic) (h : ∀ d ∈ ds, payload_not_malformed d = true) :
    (ds.filterMap (diagnostic_edit pd)).length
      = (ds.filter (fun d => is_string_payload d.data)).length := by
  revert h
  induction ds with
  | nil => intro h; rfl
  | cons d rest ih =>
    intro h
    have hd := h d (List.Mem.head _)
    have hr := ih (fun d2 hd2 => h d2 (List.mem_cons_of_mem _ hd2))
    rw [List.filterMap_cons, List.filter_cons]
    cases hdd : d.data with
    | none => simp [diagnostic_edit, hdd, is_string_payload, hr]
    | some j =>
      cases j with
      | str s =>
        simp only [payload_not_malformed] at hd
        rw [hdd] at hd
        simp only at hd
        obtain ⟨p, hdec⟩ := Option.isSome_iff_exists.mp hd
        simp [diagnostic_edit, hdd, json_edit, hdec, is_string_payload, hr]
      | null => simp [diagnostic_edit, hdd, json_edit, is_string_payload, hr]
      | bool b => simp [diagnostic_edit, hdd, json_edit, is_string_payload, hr]
      | num n => simp [diagnostic_edit, hdd, json_edit, is_string_payload, hr]
      | arr xs => simp [diagnostic_edit, hdd, json_edit, is_string_payload, hr]
      | obj kvs => simp [diagnostic_edit, hdd, json_edit, is_string_payload, hr]

/-- C1: for a batch of UnusedImports diagnostics on a parseable document
(with no malformed payload), the assembler emits exactly one combined code
action titled "Remove redundant imports"; its edit list is the payloads'
removal edits collected over the reversed batch (input order [d1, d2, d3]
yields edits [d3, d2, d1]), one edit per well-formed (string) payload. -/
theorem quickfix_unused_imports_combined_reverse
    (editsApi : EditsApi) (compiler : LspProject)
    (td : TextDocumentIdentifier) (pd : ParsedDocument)
    (ds : List Diagnostic)
    (hparse : editsApi.parse_document td = some pd)
    (h : ∀ d ∈ ds, payload_not_malformed d = true) :
    quickfix editsApi compiler td (Quickfix.UnusedImports ds)
      = Except.ok
          [{ title := "Remove redundant imports"
             kind := some CodeActionKind.QUICKFIX
             diagnostics := some ds
             is_preferred := some true
             disabled := none
             data := none
             command := none
             edit := some
               { changes := some [(td.uri,
                   (ds.reverse.filterMap (diagnostic_edit pd)).map
                     (fun annotated => annotated.2))]
                 document_changes := none
                 change_annotations := none } }]
      ∧ (ds.reverse.filterMap (diagnostic_edit pd)).length
          = (ds.filter (fun d => is_string_payload d.data)).length := by
  have hok := unused_imports_ok pd (ds.map (fun d => d.data)) ?cond
  case cond =>
    intro o ho s hos
    obtain ⟨d, hd, rfl⟩ := List.mem_map.mp ho
    have hm := h d hd
    simp only [payload_not_malformed] at hm
    rw [hos] at hm
    simpa using hm
  rw [map_data_reverse_filterMap] at hok
  constructor
  · simp only [quickfix, hparse]
    rw [hok]
    simp [Except.map, as_single_action]
  · have h2 : ∀ d ∈ ds.reverse, payload_not_malformed d = true :=
      fun d hd => h d (List.mem_reverse.mp hd)
    rw [filterMap_diagnostic_edit_length pd ds.reverse h2,
      List.filter_reverse, List.length_reverse]

/-- C1 witness: the spec's three-payload batch yields the single combined
action whose edits are in reverse of the input diagnostic order. -/
theorem quickfix_unused_imports_combined_reverse_witness :
    (∀ d ∈ [exD1, exD2, exD3], payload_not_malformed d = true)
      ∧ quickfix exApi exCompiler exTd
          (Quickfix.UnusedImports [exD1, exD2, exD3])
        = Except.ok
            [{ title := "Remove redundant imports"
               kind := some CodeActionKind.QUICKFIX
               diagnostics := some [exD1, exD2, exD3]
               is_preferred := some true
               disabled := none
               data := none
               command := none
               edit := some
                 { changes := some [("file:///lib/foo.ak",
                     [{ range := (5, 5), newText := "" },
                      { range := (50, 50), newText := "q" },
                      { range := (10, 10), newText := "" }])]
                   document_changes := none
                   change_annotations := none } }] :=
  ⟨by decide,
    ((quickfix_unused_imports_combined_reverse exApi exCompiler exTd exPd
      [exD1, exD2, exD3] rfl (by decide)).1).trans rfl⟩

/-- C2: one malformed payload string in the batch makes the whole request
fail with an internal error; no code action is returned. -/
theorem quickfix_malformed_unused_import_fatal
    (editsApi : EditsApi) (compiler : LspProject)
    (td : TextDocumentIdentifier) (pd : ParsedDocument)
    (ds : List Diagnostic) (d : Diagnostic) (s : String)
    (hparse : editsApi.parse_document td = some pd)
    (hmem : d ∈ ds) (hdata : d.data = some (Json.str s))
    (hmal : decode_payload s = none) :
    ∃ msg, quickfix editsApi compiler td (Quickfix.UnusedImports ds)
      = Except.error msg := by
  obtain ⟨msg, hmsg⟩ := unused_imports_err pd (ds.map (fun d2 => d2.data))
    ⟨d.data, List.mem_map.mpr ⟨d, hmem, rfl⟩, s, hdata, hmal⟩
  refine ⟨msg, ?_⟩
  simp only [quickfix, hparse]
  rw [hmsg]
  rfl

/-- C2 witness: the payload "notabool,10" aborts a two-diagnostic batch. -/
theorem quickfix_malformed_unused_import_fatal_witness :
    decode_payload "notabool,10" = none
      ∧ ∃ msg, quickfix exApi exCompiler exTd
          (Quickfix.UnusedImports [exD1, exBad]) = Except.error msg :=
  ⟨rfl,
    quickfix_malformed_unused_import_fatal exApi exCompiler exTd exPd
      [exD1, exBad] exBad "notabool,10" rfl
      (List.Mem.tail _ (List.Mem.head _)) rfl rfl⟩

/-- C9: a batch whose diagnostics all lack a payload still yields exactly
one combined action, with an empty edit list. -/
theorem quickfix_unused_imports_empty_edits_single_action
    (editsApi : EditsApi) (compiler : LspProject)
    (td : TextDocumentIdentifier) (pd : ParsedDocument)
    (ds : List Diagnostic)
    (hparse : editsApi.parse_document td = some pd)
    (hnone : ∀ d ∈ ds, d.data = none) :
    quickfix editsApi compiler td (Quickfix.UnusedImports ds)
      = Except.ok
          [{ title := "Remove redundant imports"
             kind := some CodeActionKind.QUICKFIX
             diagnostics := some ds
             is_preferred := some true
             disabled := none
             data := none
             command := none
             edit := some
               { changes := some [(td.uri, [])]
                 document_changes := none
                 change_annotations := none } }] := by
  have hempty : (ds.map (fun d => d.data)).reverse.filterMap id = [] := by
    rw [List.filterMap_eq_nil_iff]
    intro o ho
    obtain ⟨d, hd, rfl⟩ := List.mem_map.mp (List.mem_reverse.mp ho)
    exact hnone d hd
  have hui : unused_imports pd (ds.map (fun d => d.data)) = Except.ok [] := by
    unfold unused_imports
    rw [hempty]
    rfl
  simp only [quickfix, hparse]
  rw [hui]
  rfl

/-- C9 witness: a singleton batch with a missing payload yields the
combined action with zero edits. -/
theorem quickfix_unused_imports_empty_edits_single_action_witness :
    (∀ d ∈ [exNone], d.data = none)
      ∧ quickfix exApi exCompiler exTd (Quickfix.UnusedImports [exNone])
        = Except.ok
            [{ title := "Remove redundant imports"
               kind := some CodeActionKind.QUICKFIX
               diagnostics := some [exNone]
               is_preferred := some true
               disabled := none
               data := none
               command := none
               edit := some
                 { changes := some [("file:///lib/foo.ak", [])]
                   document_changes := none
                   change_annotations := none } }] :=
  ⟨by intro d hd; rw [List.eq_of_mem_singleton hd]; rfl,
    quickfix_unused_imports_empty_edits_single_action exApi exCompiler exTd
      exPd [exNone] rfl
      (by intro d hd; rw [List.eq_of_mem_singleton hd]; rfl)⟩

/-- C10: absent or non-string payloads never hit the fatal path: in the
unused-imports batch they are silently skipped, and for unknown
identifier/constructor/module they yield zero candidates and zero code
actions. -/
theorem quickfix_non_string_payloads_skipped
    (editsApi : EditsApi) (compiler : LspProject)
    (td : TextDocumentIdentifier) (pd : ParsedDocument)
    (pre post : List (Option Json)) (x : Option Json) (d : Diagnostic)
    (hx : is_string_payload x = false)
    (hd : is_string_payload d.data = false)
    (hparse : editsApi.parse_document td = some pd) :
    unused_imports pd (pre ++ x :: post) = unused_imports pd (pre ++ post)
      ∧ unknown_identifier compiler pd d.data = []
      ∧ unknown_constructor compiler pd d.data = []
      ∧ unknown_module compiler pd d.data = []
      ∧ quickfix editsApi compiler td (Quickfix.UnknownIdentifier d)
          = Except.ok []
      ∧ quickfix editsApi compiler td (Quickfix.UnknownConstructor d)
          = Except.ok []
      ∧ quickfix editsApi compiler td (Quickfix.UnknownModule d)
          = Except.ok [] := by
  have hid : unknown_identifier compiler pd d.data = [] := by
    cases hdd : d.data with
    | none => rfl
    | some j =>
      cases j with
      | str s => rw [hdd] at hd; simp [is_string_payload] at hd
      | null => rfl
      | bool b => rfl
      | num n => rfl
      | arr xs => rfl
      | obj kvs => rfl
  have hcon : unknown_constructor compiler pd d.data = [] := by
    cases hdd : d.data with
    | none => rfl
    | some j =>
      cases j with
      | str s => rw [hdd] at hd; simp [is_string_payload] at hd
      | null => rfl
      | bool b => rfl
      | num n => rfl
      | arr xs => rfl
      | obj kvs => rfl
  have hmod : unknown_module compiler pd d.data = [] := by
    cases hdd : d.data with
    | none => rfl
    | some j =>
      cases j with
      | str s => rw [hdd] at hd; simp [is_string_payload] at hd
      | null => rfl
      | bool b => rfl
      | num n => rfl
      | arr xs => rfl
      | obj kvs => rfl
  have hskip : unused_imports pd (pre ++ x :: post)
      = unused_imports pd (pre ++ post) := by
    cases x with
    | none =>
      unfold unused_imports
      simp [List.reverse_append, List.filterMap_append]
    | some j =>
      have hj : ∀ s, j ≠ Json.str s := by
        intro s hs
        rw [hs] at hx
        simp [is_string_payload] at hx
      unfold unused_imports
      have e1 : (pre ++ some j :: post).reverse.filterMap id
          = post.reverse.filterMap id ++ j :: pre.reverse.filterMap id := by
        simp [List.reverse_append, List.filterMap_append]
      have e2 : (pre ++ post).reverse.filterMap id
          = post.reverse.filterMap id ++ pre.reverse.filterMap id := by
        simp [List.reverse_append, List.filterMap_append]
      rw [e1, e2]
      exact process_skip pd j hj _ _
  refine ⟨hskip, hid, hcon, hmod, ?_, ?_, ?_⟩
  · simp only [quickfix, hparse]
    rw [hid]
    rfl
  · simp only [quickfix, hparse]
    rw [hcon]
    rfl
  · simp only [quickfix, hparse]
    rw [hmod]
    rfl

/-- C10 witness: a JSON-number payload is skipped in a batch and yields no
actions in the distinct modes. -/
theorem quickfix_non_string_payloads_skipped_witness :
    is_string_payload (some (Json.num 3)) = false
      ∧ is_string_payload exNumD.data = false
      ∧ (unused_imports exPd
            ([some (Json.str "true,1")] ++ some (Json.num 3) :: [none])
          = unused_imports exPd ([some (Json.str "true,1")] ++ [none])
        ∧ unknown_identifier exCompiler exPd exNumD.data = []
        ∧ unknown_constructor exCompiler exPd exNumD.data = []
        ∧ unknown_module exCompiler exPd exNumD.data = []
        ∧ quickfix exApi exCompiler exTd (Quickfix.UnknownIdentifier exNumD)
            = Except.ok []
        ∧ quickfix exApi exCompiler exTd (Quickfix.UnknownConstructor exNumD)
            = Except.ok []
        ∧ quickfix exApi exCompiler exTd (Quickfix.UnknownModule exNumD)
            = Except.ok []) :=
  ⟨rfl, rfl,
    quickfix_non_string_payloads_skipped exApi exCompiler exTd exPd
      [some (Json.str "true,1")] [none] (some (Json.num 3)) exNumD
      rfl rfl rfl⟩


/-- C3: `assert` (the classifier) is total and yields a category exactly on
the fixed (severity, code) table; in particular an unknown-variable or
unknown-type diagnostic at warning severity yields no fix category. -/
theorem assert_none_outside_table (d : Diagnostic) :
    ((assert d).isSome = spec_fix_table d)
      ∧ (d.severity = some DiagnosticSeverity.warning →
          (d.code = some (NumberOrString.str UNKNOWN_VARIABLE)
            ∨ d.code = some (NumberOrString.str UNKNOWN_TYPE)) →
          assert d = none) := by
  constructor
  · unfold assert spec_fix_table match_code
    generalize (d.code == some (NumberOrString.str UNKNOWN_VARIABLE)) = a1
    generalize (d.code == some (NumberOrString.str UNKNOWN_TYPE)) = a2
    generalize (d.code == some (NumberOrString.str UNKNOWN_CONSTRUCTOR)) = a3
    generalize (d.code == some (NumberOrString.str UNKNOWN_MODULE)) = a4
    generalize (d.code == some (NumberOrString.str UNUSED_IMPORT_VALUE)) = a5
    generalize (d.code == some (NumberOrString.str UNUSED_IMPORT_MODULE)) = a6
    generalize (d.severity == some DiagnosticSeverity.error) = s1
    generalize (d.severity == some DiagnosticSeverity.warning) = s2
    cases a1 <;> cases a2 <;> cases a3 <;> cases a4 <;> cases a5 <;>
      cases a6 <;> cases s1 <;> cases s2 <;> rfl
  · intro hs hc
    rcases hc with hc | hc <;>
      · unfold assert match_code
        rw [hs, hc]
        rfl

/-- C3 witness: an unknown-variable diagnostic at warning severity is
outside the table and gets no fix. -/
theorem assert_none_outside_table_witness :
    spec_fix_table exWarnVar = false ∧ assert exWarnVar = none :=
  ⟨rfl, (assert_none_outside_table exWarnVar).2 rfl (Or.inl rfl)⟩

/-- Filtering first is the same as mapping to `none` outside the filter. -/
theorem filterMap_ite_filter {α β : Type} (l : List α) (p : α → Bool)
    (f : α → Option β) :
    l.filterMap (fun a => if p a then f a else none)
      = (l.filter p).filterMap f := by
  induction l with
  | nil => rfl
  | cons x xs ih =>
    by_cases h : p x <;>
      simp [List.filter_cons, List.filterMap_cons, h, ih]

/-- C4: for an UnknownIdentifier diagnostic with payload name X, the
candidates are one import edit per project module defining X for which the
Document Edit Provider yields an edit, and the assembler emits exactly one
code action per candidate, each carrying only its own single edit. -/
theorem quickfix_unknown_identifier_distinct_actions
    (editsApi : EditsApi) (compiler : LspProject)
    (td : TextDocumentIdentifier) (pd : ParsedDocument)
    (d : Diagnostic) (name : String)
    (hparse : editsApi.parse_document td = some pd)
    (hdata : d.data = some (Json.str name)) :
    quickfix editsApi compiler td (Quickfix.UnknownIdentifier d)
      = Except.ok
          (((compiler.project.modules.filter
                (fun module => module.ast.has_definition name)).filterMap
              (fun module => pd.«import» module (some name))).map
            (fun annotated =>
              { title := annotated.1
                kind := some CodeActionKind.QUICKFIX
                diagnostics := some [d]
                is_preferred := some true
                disabled := none
                data := none
                command := none
                edit := some
                  { changes := some [(td.uri, [annotated.2])]
                    document_changes := none
                    change_annotations := none } })) := by
  have hgen : unknown_identifier compiler pd d.data
      = (compiler.project.modules.filter
            (fun module => module.ast.has_definition name)).filterMap
          (fun module => pd.«import» module (some name)) := by
    rw [hdata]
    exact filterMap_ite_filter _ _ _
  simp only [quickfix, hparse]
  rw [hgen]
  simp [each_as_distinct_action]

/-- C4 witness: with `x/bar` and `y/z/bar` both defining `foo`, exactly two
distinct actions are produced, each with its own single edit. -/
theorem quickfix_unknown_identifier_distinct_actions_witness :
    exIdD.data = some (Json.str "foo")
      ∧ quickfix exApi exCompiler exTd (Quickfix.UnknownIdentifier exIdD)
        = Except.ok [exActionA, exActionB] :=
  ⟨rfl,
    (quickfix_unknown_identifier_distinct_actions exApi exCompiler exTd exPd
      exIdD "foo" rfl rfl).trans rfl⟩

/-- C5: a module yields an unknown-module candidate exactly when its full
name ends with the payload (suffix match), each candidate importing the
whole module with no symbol qualifier; on the sample project the payload
"bar" matches `x/bar` and `y/z/bar` but not `barn`. -/
theorem unknown_module_suffix_match (compiler : LspProject)
    (pd : ParsedDocument) (s : String) :
    unknown_module compiler pd (some (Json.str s))
      = (compiler.project.modules.filter
            (fun module => ends_with module.name s)).filterMap
          (fun module => pd.«import» module none)
      ∧ (unknown_module exCompiler exPd (some (Json.str "bar"))).map
            (fun annotated => annotated.1)
          = ["Use x/bar", "Use y/z/bar"] :=
  ⟨filterMap_ite_filter _ _ _, by decide⟩

/-- C6: every produced code action is a preferred quickfix attaching the
originating diagnostics, and its workspace edit maps exactly the one
document owning the diagnostic to its edit list. -/
theorem quickfix_action_invariants
    (editsApi : EditsApi) (compiler : LspProject)
    (td : TextDocumentIdentifier) (qf : Quickfix)
    (actions : List CodeAction) (a : CodeAction)
    (hok : quickfix editsApi compiler td qf = Except.ok actions)
    (hmem : a ∈ actions) :
    a.kind = some CodeActionKind.QUICKFIX
      ∧ a.is_preferred = some true
      ∧ a.diagnostics = some qf.sourceDiagnostics
      ∧ ∃ edits, a.edit = some
          { changes := some [(td.uri, edits)]
            document_changes := none
            change_annotations := none } := by
  cases hp : editsApi.parse_document td with
  | none =>
    simp only [quickfix, hp] at hok
    injection hok with h
    subst h
    cases hmem
  | some pd =>
    cases qf with
    | UnknownIdentifier d =>
      simp only [quickfix, hp] at hok
      injection hok with h
      subst h
      simp only [each_as_distinct_action, List.nil_append] at hmem
      obtain ⟨annotated, hann, rfl⟩ := List.mem_map.mp hmem
      exact ⟨rfl, rfl, rfl, [annotated.2], rfl⟩
    | UnknownModule d =>
      simp only [quickfix, hp] at hok
      injection hok with h
      subst h
      simp only [each_as_distinct_action, List.nil_append] at hmem
      obtain ⟨annotated, hann, rfl⟩ := List.mem_map.mp hmem
      exact ⟨rfl, rfl, rfl, [annotated.2], rfl⟩
    | UnknownConstructor d =>
      simp only [quickfix, hp] at hok
      injection hok with h
      subst h
      simp only [each_as_distinct_action, List.nil_append] at hmem
      obtain ⟨annotated, hann, rfl⟩ := List.mem_map.mp hmem
      exact ⟨rfl, rfl, rfl, [annotated.2], rfl⟩
    | UnusedImports ds =>
      simp only [quickfix, hp] at hok
      cases hu : unused_imports pd (ds.map (fun d2 => d2.data)) with
      | error msg =>
        rw [hu] at hok
        simp [Except.map] at hok
      | ok edits =>
        rw [hu] at hok
        simp only [Except.map] at hok
        injection hok with h
        subst h
        simp only [as_single_action, List.nil_append] at hmem
        rw [List.mem_singleton] at hmem
        subst hmem
        exact ⟨rfl, rfl, rfl, edits.map (fun annotated => annotated.2), rfl⟩

/-- C6 witness: the first action of the sample unknown-identifier request
satisfies every invariant. -/
theorem quickfix_action_invariants_witness :
    quickfix exApi exCompiler exTd (Quickfix.UnknownIdentifier exIdD)
        = Except.ok [exActionA, exActionB]
      ∧ (exActionA.kind = some CodeActionKind.QUICKFIX
        ∧ exActionA.is_preferred = some true
        ∧ exActionA.diagnostics
            = some (Quickfix.UnknownIdentifier exIdD).sourceDiagnostics
        ∧ ∃ edits, exActionA.edit = some
            { changes := some [(exTd.uri, edits)]
              document_changes := none
              change_annotations := none }) :=
  ⟨rfl,
    quickfix_action_invariants exApi exCompiler exTd
      (Quickfix.UnknownIdentifier exIdD) [exActionA, exActionB] exActionA
      rfl (List.Mem.head _)⟩

/-- C7: an unparseable document yields no actions for every fix category: a
silent no-op, not an error. -/
theorem quickfix_unparseable_document_no_actions
    (editsApi : EditsApi) (compiler : LspProject)
    (td : TextDocumentIdentifier) (qf : Quickfix)
    (h : editsApi.parse_document td = none) :
    quickfix editsApi compiler td qf = Except.ok [] := by
  simp [quickfix, h]

/-- C7 witness: with a Document Edit Provider that cannot parse the
document, the request returns zero actions. -/
theorem quickfix_unparseable_document_no_actions_witness :
    noParseApi.parse_document exTd = none
      ∧ quickfix noParseApi exCompiler exTd (Quickfix.UnknownModule exIdD)
        = Except.ok [] :=
  ⟨rfl,
    quickfix_unparseable_document_no_actions noParseApi exCompiler exTd
      (Quickfix.UnknownModule exIdD) rfl⟩

end AikenLsp

namespace AikenDocs

/-- A module's three documentation collections are all empty exactly when
none of its definitions is public and documentable. -/
theorem defs_empty (env : DocsEnv) (defs : List Definition) :
    ((defs.filterMap (DocFunction.from_definition env)).isEmpty
        && (defs.filterMap (DocType.from_definition env)).isEmpty
        && (defs.filterMap (DocConstant.from_definition env)).isEmpty)
      = !(defs.any has_public_definition) := by
  induction defs with
  | nil => rfl
  | cons d rest ih =>
    cases d with
    | fn f =>
      cases hp : f.public <;>
        simp [DocFunction.from_definition, DocType.from_definition,
          DocConstant.from_definition, has_public_definition,
          List.filterMap_cons, List.any_cons, hp, ih]
    | dataType dt =>
      cases hp : dt.public <;> cases ho : dt.opaq <;>
        simp [DocFunction.from_definition, DocType.from_definition,
          DocConstant.from_definition, has_public_definition,
          List.filterMap_cons, List.any_cons, hp, ho, ih]
    | typeAlias a =>
      cases hp : a.public <;>
        simp [DocFunction.from_definition, DocType.from_definition,
          DocConstant.from_definition, has_public_definition,
          List.filterMap_cons, List.any_cons, hp, ih]
    | moduleConstant c =>
      cases hp : c.public <;>
        simp [DocFunction.from_definition, DocType.from_definition,
          DocConstant.from_definition, has_public_definition,
          List.filterMap_cons, List.any_cons, hp, ih]
    | other =>
      simp [DocFunction.from_definition, DocType.from_definition,
        DocConstant.from_definition, has_public_definition,
        List.filterMap_cons, List.any_cons, ih]

/-- A module's search-index list is empty exactly when the module has no
public documentable definition. -/
theorem generate_module_indexes_isEmpty (env : DocsEnv) (config : Config)
    (m : CheckedModule) (links : List DocLink) (src : DocLink) (ts : Nat) :
    (generate_module env config m links src ts).1.isEmpty
      = !(m.ast.definitions.any has_public_definition) := by
  simp only [generate_module]
  cases hany : m.ast.definitions.any has_public_definition
  · have h := defs_empty env m.ast.definitions
    rw [hany] at h
    simp only [Bool.not_false] at h
    rw [Bool.and_eq_true, Bool.and_eq_true] at h
    obtain ⟨⟨hA, hB⟩, hC⟩ := h
    rw [List.isEmpty_iff] at hA hB hC
    simp [hA, hB, hC]
  · cases hA : m.ast.definitions.filterMap (DocFunction.from_definition env) with
    | cons y ys => simp [hA]
    | nil =>
      cases hB : m.ast.definitions.filterMap (DocType.from_definition env) with
      | cons y ys => simp [hA, hB]
      | nil =>
        cases hC : m.ast.definitions.filterMap
            (DocConstant.from_definition env) with
        | cons y ys => simp [hA, hB, hC]
        | nil =>
          have h := defs_empty env m.ast.definitions
          rw [hany, hA, hB, hC] at h
          simp at h

/-- The page generated for a module lives at `<module name>.html`. -/
theorem generate_module_path (env : DocsEnv) (config : Config)
    (m : CheckedModule) (links : List DocLink) (src : DocLink) (ts : Nat) :
    (generate_module env config m links src ts).2.path = m.name ++ ".html" :=
  rfl

/-- The accumulation loop emits exactly one page per module with a public
documentable definition, in input order. -/
theorem collect_module_files_paths (env : DocsEnv) (config : Config)
    (links : List DocLink) (src : DocLink) (ts : Nat)
    (ms : List CheckedModule) :
    (collect_module_files env config links src ts ms).2.map (fun f => f.path)
      = (ms.filter
            (fun m => m.ast.definitions.any has_public_definition)).map
          (fun m => m.name ++ ".html") := by
  induction ms with
  | nil => rfl
  | cons m rest ih =>
    simp only [collect_module_files]
    rw [List.filter_cons]
    have hgm := generate_module_indexes_isEmpty env config m links src ts
    cases hany : m.ast.definitions.any has_public_definition
    · rw [hany] at hgm
      simp only [Bool.not_false] at hgm
      simp [hgm, ih]
    · rw [hany] at hgm
      simp only [Bool.not_true] at hgm
      simp [hgm, ih, generate_module_path]

/-- C8: the documentation generator's output is exactly one page per
documented module (a module with at least one public documentable
definition), the fixed static assets, exactly one search-index script
`search-data.js`, and exactly one readme page `index.html`. -/
theorem generate_all_output_file_set (env : DocsEnv) (config : Config)
    (modules : List CheckedModule) :
    (generate_all env config modules).map (fun f => f.path)
      = ((modules.filter
            (fun m => m.ast.definitions.any has_public_definition)).map
          (fun m => m.name ++ ".html"))
        ++ ["favicon.svg", "css/atom-one-light.min.css",
            "css/atom-one-dark.min.css", "css/index.css",
            "js/highlight.min.js", "js/highlightjs-aiken.js",
            "js/lunr.min.js", "js/index.js", "search-data.js"]
        ++ ["index.html"] := by
  unfold generate_all
  simp only [List.map_append]
  rw [collect_module_files_paths]
  rfl

end AikenDocs
